import Mathlib

/-!
# lib-httputil: request builders, health check and TLS client configuration

A shallow embedding of `pkg/httputil/httputil.go`, `pkg/httputil/tls.go` and
`internal/errtemplates/errtemplates.go`.

The repository's functions (`Get`, `Post`, `Put`, `HealthCheck`,
`NewTLSConfigFromEnv`, `NewTLSConfig`, `EnvVariableNotDefined`) are translated
statement by statement.  What they call in Go's standard library and in
`github.com/pkg/errors` is modelled here as far as the functions use it:

* error values, `Error()`, `Unwrap()` and `errors.Is`;
* `fmt.Sprintf` for the verbs `%s`, `%d`, `%v`, `%w`;
* `http.NewRequestWithContext` and `Header.Set` / `Header.Get`;
* `tls.LoadX509KeyPair`, `x509.NewCertPool`, `(*CertPool).AppendCertsFromPEM`.

What depends on the outside world (URL parsing, the network round trip, the
process environment, the file system, PEM and X.509 decoding) is a field of
the records `Net` and `Sys`, so every theorem holds for every behaviour of the
outside world.  Effects are made visible as a list of events returned next to
the result.
-/

namespace Httputil

/-! ## Error values -/

/-- Go error values, by the concrete type behind the `error` interface.
`leaf` is an error without `Unwrap` made outside this repository
(`errors.New`, a sentinel such as `context.DeadlineExceeded`); `wrapper` is an
error made outside this repository that has `Unwrap` (such as `*url.Error`);
`fundamental`, `withMessage` and `withStack` are the three types of
`github.com/pkg/errors` (the recorded call stack is left out); `wrapError` is
what `fmt.Errorf` returns for a format with one `%w`. -/
inductive GoError where
  | leaf (msg : String)
  | wrapper (msg : String) (inner : GoError)
  | fundamental (msg : String)
  | withMessage (cause : GoError) (msg : String)
  | withStack (inner : GoError)
  | wrapError (msg : String) (err : GoError)
  deriving DecidableEq, Repr

/-- The method `Error() string` of each error type. -/
def GoError.Error : GoError → String
  | .leaf m => m
  | .wrapper m _ => m
  | .fundamental m => m
  | .withMessage c m => m ++ ": " ++ c.Error
  | .withStack e => e.Error
  | .wrapError m _ => m

/-- The method `Unwrap() error` of each error type, `none` where the type has
no such method. -/
def GoError.Unwrap : GoError → Option GoError
  | .leaf _ => none
  | .wrapper _ e => some e
  | .fundamental _ => none
  | .withMessage c _ => some c
  | .withStack e => some e
  | .wrapError _ e => some e

/-- The unwrap chain of an error: the error itself, then what `Unwrap`
returns, and so on. -/
def GoError.chain : GoError → List GoError
  | .leaf m => [.leaf m]
  | .wrapper m e => .wrapper m e :: e.chain
  | .fundamental m => [.fundamental m]
  | .withMessage c m => .withMessage c m :: c.chain
  | .withStack e => .withStack e :: e.chain
  | .wrapError m e => .wrapError m e :: e.chain

/-- Go's `errors.Is(err, target)` for comparable error values: some error of
the unwrap chain of `err` equals `target`. -/
def Is (err : Option GoError) (target : GoError) : Bool :=
  match err with
  | none => false
  | some e => e.chain.any (fun x => x == target)

/-- The sentinel `context.DeadlineExceeded`. -/
def DeadlineExceeded : GoError := .leaf "context deadline exceeded"

/-! ## Formatting -/

/-- An operand of `fmt.Sprintf`. -/
inductive FmtArg where
  | str (s : String)
  | int (i : Int)
  | err (e : Option GoError)

/-- The text an operand is formatted to: a string as it is (`%s`), an integer
in decimal with a leading `-` when negative (`%d`), an error by its `Error()`
(`%v`, `%w`). -/
def renderArg : FmtArg → List Char
  | .str s => s.data
  | .int i => (toString i).data
  | .err none => "<nil>".data
  | .err (some e) => e.Error.data

/-- The format is copied character by character; a `%` followed by a verb
character takes the next operand. -/
def sprintfAux : List Char → List FmtArg → List Char
  | [], _ => []
  | [c], _ => [c]
  | c :: v :: rest, args =>
    if c = '%' then
      match args with
      | a :: args2 => renderArg a ++ sprintfAux rest args2
      | [] => c :: sprintfAux (v :: rest) []
    else c :: sprintfAux (v :: rest) args

/-- Go's `fmt.Sprintf` for a format whose verbs are among `%s`, `%d`, `%v`,
`%w`, each with an operand of the matching kind. -/
def Sprintf (format : String) (args : List FmtArg) : String :=
  ⟨sprintfAux format.data args⟩

/-- The function `errors.Errorf` of `github.com/pkg/errors`: a `fundamental`
error with the formatted message. -/
def Errorf (format : String) (args : List FmtArg) : GoError :=
  .fundamental (Sprintf format args)

/-- The function `errors.Wrapf` of `github.com/pkg/errors`: nil for a nil
error, otherwise the error annotated with the formatted message and a stack. -/
def Wrapf (err : Option GoError) (format : String) (args : List FmtArg) : Option GoError :=
  match err with
  | none => none
  | some e => some (.withStack (.withMessage e (Sprintf format args)))

/-- Go's `fmt.Errorf` for a format with exactly one `%w`, whose operand is
`wrapped`: the message is the formatted text and `Unwrap` gives `wrapped`. -/
def fmtErrorf (format : String) (args : List FmtArg) (wrapped : GoError) : GoError :=
  .wrapError (Sprintf format args) wrapped

/-! ## Requests -/

/-- A `context.Context` value, as far as it is told apart from another. -/
structure Context where
  label : String
  expired : Bool
  deriving DecidableEq, Repr

/-- A byte string (`[]byte`), one natural number below 256 per byte. -/
abbrev Bytes := List Nat

/-- The struct `url.URL`. -/
structure URL where
  Scheme : String
  Opaque : String
  Host : String
  Path : String
  RawQuery : String
  Fragment : String
  deriving DecidableEq, Repr

/-- The dynamic type of an `io.Reader` passed as a request body, as far as
`http.NewRequestWithContext` looks at it. -/
inductive ReaderKind where
  | bytesBuffer
  | bytesReader
  | stringsReader
  | plainReader
  | readCloser
  deriving DecidableEq, Repr

/-- An `io.Reader`: its dynamic type and the bytes it yields until EOF. -/
structure Reader where
  kind : ReaderKind
  data : Bytes
  deriving DecidableEq, Repr

/-- The field `Body` of a request when it is not nil: `http.NoBody`, the
reader wrapped by `io.NopCloser`, or the reader itself when it is an
`io.ReadCloser`. -/
inductive Body where
  | NoBody
  | nopCloser (r : Reader)
  | direct (r : Reader)
  deriving DecidableEq, Repr

/-- The bytes `io.ReadAll` yields from a reader. -/
def Reader.ReadAll (r : Reader) : Bytes := r.data

/-- The bytes `io.ReadAll` yields from a request body. -/
def Body.ReadAll : Body → Bytes
  | .NoBody => []
  | .nopCloser r => r.ReadAll
  | .direct r => r.ReadAll

/-- The type `http.Header`, a map from key to values, as an association list
with at most one entry per key in use. -/
abbrev Header := List (String × List String)

/-- The bytes allowed in a header field name and in a method (the token
characters of RFC 7230), by code point. -/
def isTokenRune (c : Char) : Bool :=
  let n := c.toNat
  (48 ≤ n && n ≤ 57) || (65 ≤ n && n ≤ 90) || (97 ≤ n && n ≤ 122) ||
    [33, 35, 36, 37, 38, 39, 42, 43, 45, 46, 94, 95, 96, 124, 126].contains n

/-- One pass of the canonical form of a header key: upper case for the first
letter and for a letter after `-`, lower case elsewhere. -/
def canonicalCase : Bool → List Char → List Char
  | _, [] => []
  | upper, c :: cs =>
    let d :=
      if upper && decide (97 ≤ c.toNat) && decide (c.toNat ≤ 122) then Char.ofNat (c.toNat - 32)
      else if !upper && decide (65 ≤ c.toNat) && decide (c.toNat ≤ 90) then Char.ofNat (c.toNat + 32)
      else c
    d :: canonicalCase (d.toNat == 45) cs

/-- Go's `textproto.CanonicalMIMEHeaderKey`: a key with a byte that is not a
token character is returned unchanged. -/
def CanonicalMIMEHeaderKey (s : String) : String :=
  if s.data.all isTokenRune then ⟨canonicalCase true s.data⟩ else s

/-- The method `Header.Set`: the entry of the canonical key is replaced by
the single value. -/
def Header.Set (h : Header) (key value : String) : Header :=
  (CanonicalMIMEHeaderKey key, [value]) ::
    h.filter (fun kv => kv.1 != CanonicalMIMEHeaderKey key)

/-- The method `Header.Values`: all values of the canonical key. -/
def Header.Values (h : Header) (key : String) : List String :=
  match h.lookup (CanonicalMIMEHeaderKey key) with
  | some vs => vs
  | none => []

/-- The method `Header.Get`: the first value of the canonical key, or the
empty string. -/
def Header.Get (h : Header) (key : String) : String :=
  match h.Values key with
  | v :: _ => v
  | [] => ""

/-- The struct `http.Request`, with the fields `http.NewRequestWithContext`
sets. -/
structure Request where
  ctx : Option Context
  Method : String
  URL : URL
  Proto : String
  ProtoMajor : Nat
  ProtoMinor : Nat
  Header : Header
  Body : Option Body
  hasGetBody : Bool
  ContentLength : Int
  Host : String
  deriving DecidableEq, Repr

/-- The struct `http.Response` as `HealthCheck` uses it: the status code, the
bytes of the body, the error reading the body ends with (if any) and the error
`Body.Close()` returns (if any). -/
structure Response where
  StatusCode : Int
  bodyData : Bytes
  readErr : Option GoError
  closeErr : Option GoError
  deriving DecidableEq, Repr

/-- The outside world of the request functions: `url.Parse` and
`http.DefaultClient.Do`. -/
structure Net where
  urlParse : String → Except GoError URL
  clientDo : Request → Except GoError Response

/-- The constants `http.MethodGet`, `http.MethodPost`, `http.MethodPut` and
`http.StatusOK`. -/
def MethodGet : String := "GET"

/-- The constant `http.MethodPost`. -/
def MethodPost : String := "POST"

/-- The constant `http.MethodPut`. -/
def MethodPut : String := "PUT"

/-- The constant `http.StatusOK`. -/
def StatusOK : Int := 200

/-- Go's `validMethod`: not empty and made of token characters. -/
def validMethod (method : String) : Bool :=
  decide (0 < method.data.length) && method.data.all isTokenRune

/-- Go's `hasPort`: the last `:` of the host comes after its last `]`. -/
def hasPort (host : List Char) : Bool :=
  let afterBracket := (host.reverse.takeWhile (fun c => c != Char.ofNat 93))
  afterBracket.any (fun c => c == Char.ofNat 58)

/-- Go's `removeEmptyPort`: a host that ends in `:` with nothing after it
loses that `:`. -/
def removeEmptyPort (host : String) : String :=
  if hasPort host.data then
    match host.data.reverse with
    | c :: cs => if c == Char.ofNat 58 then ⟨cs.reverse⟩ else host
    | [] => host
  else host

/-- The length of the readers whose length `http.NewRequestWithContext`
reads (`*bytes.Buffer`, `*bytes.Reader`, `*strings.Reader`). -/
def knownLength (r : Reader) : Option Nat :=
  match r.kind with
  | .bytesBuffer => some r.data.length
  | .bytesReader => some r.data.length
  | .stringsReader => some r.data.length
  | .plainReader => none
  | .readCloser => none

/-- Go's `http.NewRequestWithContext`. -/
def NewRequestWithContext (N : Net) (ctx : Option Context) (method url : String)
    (body : Option Reader) : Except GoError Request :=
  let method := if method = "" then "GET" else method
  if !validMethod method then
    .error (.leaf ("net/http: invalid method " ++ method.quote))
  else
    match ctx with
    | none => .error (.leaf "net/http: nil Context")
    | some c =>
      match N.urlParse url with
      | .error err => .error err
      | .ok u =>
        let rc : Option Body :=
          match body with
          | none => none
          | some r => if r.kind = .readCloser then some (.direct r) else some (.nopCloser r)
        let u := { u with Host := removeEmptyPort u.Host }
        let req : Request :=
          { ctx := some c, Method := method, URL := u, Proto := "HTTP/1.1",
            ProtoMajor := 1, ProtoMinor := 1, Header := [], Body := rc,
            hasGetBody := false, ContentLength := 0, Host := u.Host }
        match body with
        | none => .ok req
        | some r =>
          match knownLength r with
          | none => .ok req
          | some n =>
            if n = 0 then
              .ok { req with ContentLength := 0, hasGetBody := true, Body := some .NoBody }
            else
              .ok { req with ContentLength := (n : Int), hasGetBody := true }

/-- Source: `Get` (httputil.go, lines 28-31). -/
def Get (N : Net) (ctx : Option Context) (url : String) : Except GoError Request :=
  NewRequestWithContext N ctx MethodGet url none

/-- Source: `Post` (httputil.go, lines 33-44). -/
def Post (N : Net) (ctx : Option Context) (url contentType : String) (body : Option Reader) :
    Except GoError Request :=
  match NewRequestWithContext N ctx MethodPost url body with
  | .error err => .error err
  | .ok request => .ok { request with Header := request.Header.Set "Content-Type" contentType }

/-- Source: `Put` (httputil.go, lines 46-57). -/
def Put (N : Net) (ctx : Option Context) (url contentType : String) (body : Option Reader) :
    Except GoError Request :=
  match NewRequestWithContext N ctx MethodPut url body with
  | .error err => .error err
  | .ok request => .ok { request with Header := request.Header.Set "Content-Type" contentType }

/-! ## Health check -/

/-- What `HealthCheck` does to the outside world, in order. -/
inductive NetEvent where
  | roundTrip (request : Request)
  | drainBody
  | closeBody
  deriving DecidableEq, Repr

/-- The deferred function of `HealthCheck` (httputil.go, lines 71-81): `err`
is the named result as the `return` statement left it, `closeErr` what
`response.Body.Close()` returned; the value is the named result afterwards. -/
def deferredClose (err : Option GoError) (closeErr : Option GoError) : Option GoError :=
  match closeErr with
  | none => err
  | some c =>
    match err with
    | none => some (fmtErrorf "failed to close response body: %w" [.err (some c)] c)
    | some e =>
      some (fmtErrorf "%v; failed to close response body: %w" [.err (some e), .err (some c)] c)

/-- Source: `HealthCheck` (httputil.go, lines 59-91).  The result is the
returned error (`none` is nil) and the events in the order they happened. -/
def HealthCheck (N : Net) (ctx : Option Context) (url : String) :
    Option GoError × List NetEvent :=
  match Get N ctx url with
  | .error err =>
    (Wrapf (some err) "constructing health check request for target %s failed" [.str url], [])
  | .ok request =>
    match N.clientDo request with
    | .error err =>
      (Wrapf (some err) "health check of %s failed" [.str url], [.roundTrip request])
    | .ok response =>
      let err : Option GoError := none
      let returned : Option GoError :=
        if response.StatusCode ≠ StatusOK then
          some (Errorf "health check of %s returned a non-200 status code (%d)"
            [.str url, .int response.StatusCode])
        else err
      (deferredClose returned response.closeErr, [.roundTrip request, .drainBody, .closeBody])

/-! ## TLS client configuration -/

/-- Source: `envVariableNotDefinedTemplate` (errtemplates.go, line 23). -/
def envVariableNotDefinedTemplate : String := "env variable %s not defined"

/-- Source: `EnvVariableNotDefined` (errtemplates.go, lines 26-29). -/
def EnvVariableNotDefined (name : String) : GoError :=
  Errorf envVariableNotDefinedTemplate [.str name]

/-- Source: `clientCertFileEnvKey` (tls.go, line 27). -/
def clientCertFileEnvKey : String := "CLIENT_CERT_PATH"

/-- Source: `clientKeyFileEnvKey` (tls.go, line 28). -/
def clientKeyFileEnvKey : String := "CLIENT_KEY_PATH"

/-- Source: `caCertFileEnvKey` (tls.go, line 29). -/
def caCertFileEnvKey : String := "CA_CERT_PATH"

/-- The struct `tls.Certificate`: the certificate chain (Go's field
`Certificate`) and the private key. -/
structure Certificate where
  Chain : List Bytes
  PrivateKey : Bytes
  deriving DecidableEq, Repr

/-- The struct `x509.Certificate`, by its raw DER bytes. -/
structure X509Certificate where
  Raw : Bytes
  deriving DecidableEq, Repr

/-- The struct `pem.Block`. -/
structure PemBlock where
  Typ : String
  Headers : List (String × String)
  Bytes : Bytes
  deriving DecidableEq, Repr

/-- The type `x509.CertPool`: the certificates in the order they were added. -/
structure CertPool where
  certs : List X509Certificate
  deriving DecidableEq, Repr

/-- The struct `tls.Config`; every field defaults to its zero value. -/
structure Config where
  Certificates : List Certificate := []
  RootCAs : Option CertPool := none
  NextProtos : List String := []
  ServerName : String := ""
  ClientAuth : Nat := 0
  ClientCAs : Option CertPool := none
  InsecureSkipVerify : Bool := false
  CipherSuites : List Nat := []
  SessionTicketsDisabled : Bool := false
  MinVersion : Nat := 0
  MaxVersion : Nat := 0
  deriving DecidableEq, Repr

/-- The constant `tls.VersionTLS12` (0x0303). -/
def VersionTLS12 : Nat := 771

/-- The outside world of the TLS functions: the process environment (`none`
for a variable that is not set), `os.ReadFile`, `tls.X509KeyPair`,
`filepath.Clean`, the blocks successive calls of `pem.Decode` find in a byte
string until it finds none, and `x509.ParseCertificate`. -/
structure Sys where
  environ : String → Option String
  ReadFile : String → Except GoError Bytes
  X509KeyPair : Bytes → Bytes → Except GoError Certificate
  Clean : String → String
  pemBlocks : Bytes → List PemBlock
  ParseCertificate : Bytes → Except GoError X509Certificate

/-- What the TLS functions do to the file system, in order. -/
inductive FileEvent where
  | read (path : String)
  deriving DecidableEq, Repr

/-- Go's `os.Getenv`: the empty string for a variable that is not set. -/
def Getenv (S : Sys) (key : String) : String :=
  match S.environ key with
  | some v => v
  | none => ""

/-- Go's `tls.LoadX509KeyPair`: both files are read, the certificate file
first, then the pair is parsed. -/
def LoadX509KeyPair (S : Sys) (certFile keyFile : String) :
    Except GoError Certificate × List FileEvent :=
  match S.ReadFile certFile with
  | .error err => (.error err, [.read certFile])
  | .ok certPEMBlock =>
    match S.ReadFile keyFile with
    | .error err => (.error err, [.read certFile, .read keyFile])
    | .ok keyPEMBlock => (S.X509KeyPair certPEMBlock keyPEMBlock, [.read certFile, .read keyFile])

/-- Go's `x509.NewCertPool`. -/
def NewCertPool : CertPool := ⟨[]⟩

/-- The pool after adding a certificate: one whose raw bytes are in the pool
already is not added again. -/
def CertPool.AddCert (s : CertPool) (cert : X509Certificate) : CertPool :=
  if s.certs.any (fun c => c.Raw == cert.Raw) then s else ⟨s.certs ++ [cert]⟩

/-- One round of the loop of `AppendCertsFromPEM` on the block `pem.Decode`
found: a block that is not a `CERTIFICATE`, has headers, or does not parse is
skipped. -/
def appendBlock (S : Sys) (acc : CertPool × Bool) (block : PemBlock) : CertPool × Bool :=
  if block.Typ ≠ "CERTIFICATE" ∨ block.Headers.length ≠ 0 then acc
  else
    match S.ParseCertificate block.Bytes with
    | .error _ => acc
    | .ok cert => (acc.1.AddCert cert, true)

/-- Go's `(*CertPool).AppendCertsFromPEM`: the pool afterwards and the
reported `ok`. -/
def AppendCertsFromPEM (S : Sys) (s : CertPool) (pemCerts : Bytes) : CertPool × Bool :=
  (S.pemBlocks pemCerts).foldl (appendBlock S) (s, false)

/-- Source: `NewTLSConfig` (tls.go, lines 51-75).  The result is the returned
pair (`.error err` for `nil, err`) and the file reads in order. -/
def NewTLSConfig (S : Sys) (clientCertFile clientKeyFile caCertFile : String) :
    Except GoError Config × List FileEvent :=
  let tlsConfig : Config := { MinVersion := VersionTLS12 }
  match LoadX509KeyPair S clientCertFile clientKeyFile with
  | (.error err, reads) => (.error err, reads)
  | (.ok cert, reads) =>
    let tlsConfig := { tlsConfig with Certificates := [cert] }
    let caCertFilePath := S.Clean caCertFile
    match S.ReadFile caCertFilePath with
    | .error err => (.error err, reads ++ [.read caCertFilePath])
    | .ok caCert =>
      let caCertPool := NewCertPool
      let caCertPool := (AppendCertsFromPEM S caCertPool caCert).1
      let tlsConfig := { tlsConfig with RootCAs := some caCertPool }
      (.ok tlsConfig, reads ++ [.read caCertFilePath])

/-- Source: `NewTLSConfigFromEnv` (tls.go, lines 32-49). -/
def NewTLSConfigFromEnv (S : Sys) : Except GoError Config × List FileEvent :=
  let clientCertFile := Getenv S clientCertFileEnvKey
  if clientCertFile = "" then
    (.error (EnvVariableNotDefined clientCertFileEnvKey), [])
  else
    let clientKeyFile := Getenv S clientKeyFileEnvKey
    if clientKeyFile = "" then
      (.error (EnvVariableNotDefined clientKeyFileEnvKey), [])
    else
      let caCertFile := Getenv S caCertFileEnvKey
      if caCertFile = "" then
        (.error (EnvVariableNotDefined caCertFileEnvKey), [])
      else
        NewTLSConfig S clientCertFile clientKeyFile caCertFile

/-! ## A concrete outside world

A small, fully explicit `Net` and `Sys`, used to evaluate the functions above
on concrete inputs. -/

/-- A background context. -/
def background : Context := { label := "background", expired := false }

/-- A context whose deadline has passed. -/
def timedOut : Context := { label := "timeout", expired := true }

/-- A toy `url.Parse`: a string with a blank is refused; `http://host/path` is
split into scheme, host and path; anything else becomes a path. -/
def demoParse (s : String) : Except GoError URL :=
  if s.data.any (fun c => c == ' ') then
    .error (.wrapper "parse: invalid character in host name" (.leaf "invalid character in host name"))
  else
    match s.data with
    | 'h' :: 't' :: 't' :: 'p' :: ':' :: '/' :: '/' :: rest =>
      .ok { Scheme := "http", Opaque := "", Host := ⟨rest.takeWhile (fun c => c != '/')⟩,
            Path := ⟨rest.dropWhile (fun c => c != '/')⟩, RawQuery := "", Fragment := "" }
    | _ => .ok { Scheme := "", Opaque := "", Host := "", Path := s, RawQuery := "", Fragment := "" }

/-- The error a failing `Close` reports in the toy client. -/
def closeFailure : GoError := .leaf "close: connection reset"

/-- A toy `http.DefaultClient.Do`: a request whose context has expired fails
with a `*url.Error` around `context.DeadlineExceeded`; otherwise the host
decides the response. -/
def demoDo (req : Request) : Except GoError Response :=
  if req.ctx = some timedOut then
    .error (.wrapper "Get: context deadline exceeded" DeadlineExceeded)
  else if req.URL.Host = "up" then
    .ok { StatusCode := 200, bodyData := [111, 107], readErr := none, closeErr := none }
  else if req.URL.Host = "nocontent" then
    .ok { StatusCode := 204, bodyData := [], readErr := none, closeErr := none }
  else if req.URL.Host = "teapot" then
    .ok { StatusCode := 418, bodyData := [], readErr := none, closeErr := none }
  else if req.URL.Host = "badclose" then
    .ok { StatusCode := 200, bodyData := [], readErr := none, closeErr := some closeFailure }
  else if req.URL.Host = "down" then
    .ok { StatusCode := 503, bodyData := [], readErr := none, closeErr := some closeFailure }
  else
    .error (.wrapper "Get: dial tcp: connection refused" (.leaf "connection refused"))

/-- The toy network. -/
def demoNet : Net := { urlParse := demoParse, clientDo := demoDo }

/-- The request has the given method and context, and its URL is the one parsed
from the given string, the host without an empty port as the constructor
leaves it. -/
def Carries (N : Net) (r : Request) (method : String) (ctx : Option Context) (url : String) :
    Prop :=
  r.Method = method ∧ r.ctx = ctx ∧
    ∃ u, N.urlParse url = .ok u ∧ r.URL = { u with Host := removeEmptyPort u.Host }

/-- The statement `request.Header.Set("Content-Type", contentType)` of `Post`
and `Put`. -/
def withContentType (contentType : String) (request : Request) : Request :=
  { request with Header := request.Header.Set "Content-Type" contentType }

/-- The body of the tests: a `*strings.Reader` over the four bytes of `body`. -/
def jsonBody : Reader := { kind := .stringsReader, data := [98, 111, 100, 121] }

/-! ## Conditions on the environment and the files -/

/-- The variable is not set, or set to the empty string. -/
def unsetOrEmpty (S : Sys) (key : String) : Prop :=
  S.environ key = none ∨ S.environ key = some ""

/-- A block that `AppendCertsFromPEM` adds: a `CERTIFICATE` block without
headers whose bytes parse to `cert`. -/
def validBlock (S : Sys) (block : PemBlock) (cert : X509Certificate) : Prop :=
  block.Typ = "CERTIFICATE" ∧ block.Headers.length = 0 ∧
    S.ParseCertificate block.Bytes = .ok cert

/-- The three variables are set and not empty, and each names a valid file:
the key pair at the first two paths loads, and the file at the cleaned third
path can be read and holds a `CERTIFICATE` block whose bytes parse as a
certificate. -/
def validPaths (S : Sys) : Prop :=
  ¬ unsetOrEmpty S clientCertFileEnvKey ∧ ¬ unsetOrEmpty S clientKeyFileEnvKey ∧
    ¬ unsetOrEmpty S caCertFileEnvKey ∧
    (∃ cert, (LoadX509KeyPair S (Getenv S clientCertFileEnvKey)
      (Getenv S clientKeyFileEnvKey)).1 = .ok cert) ∧
    ∃ caCert, S.ReadFile (S.Clean (Getenv S caCertFileEnvKey)) = .ok caCert ∧
      ∃ block ∈ S.pemBlocks caCert, block.Typ = "CERTIFICATE" ∧
        ∃ cert, S.ParseCertificate block.Bytes = .ok cert

/-- The file at the cleaned CA path holds at least one block that
`AppendCertsFromPEM` adds: a `CERTIFICATE` block without headers whose bytes
parse as a certificate. -/
def caHoldsCertificate (S : Sys) : Prop :=
  ∃ caCert, S.ReadFile (S.Clean (Getenv S caCertFileEnvKey)) = .ok caCert ∧
    ∃ block ∈ S.pemBlocks caCert, ∃ cert, validBlock S block cert

/-- The toy file system: a client certificate, its key, a CA bundle with one
valid and one malformed certificate block, and a CA file whose only block is a
certificate block that carries a header. -/
def demoReadFile (path : String) : Except GoError Bytes :=
  if path = "/etc/tls/client.crt" then .ok [1, 2, 3]
  else if path = "/etc/tls/client.key" then .ok [4, 5, 6]
  else if path = "/etc/tls/ca.pem" then .ok [7, 8]
  else if path = "/etc/tls/headers.pem" then .ok [9]
  else .error (.wrapper "open: no such file or directory" (.leaf "no such file or directory"))

/-- The toy `tls.X509KeyPair`: only the toy certificate and key form a pair. -/
def demoKeyPair (certPEMBlock keyPEMBlock : Bytes) : Except GoError Certificate :=
  if certPEMBlock = [1, 2, 3] ∧ keyPEMBlock = [4, 5, 6] then
    .ok { Chain := [[1, 2, 3]], PrivateKey := [4, 5, 6] }
  else .error (.leaf "tls: failed to find any PEM data in certificate input")

/-- The toy `filepath.Clean`: one path with a `..` segment is resolved. -/
def demoClean (path : String) : String :=
  if path = "/etc/tls/../tls/ca.pem" then "/etc/tls/ca.pem" else path

/-- The toy PEM decoder: every byte of the file is one `CERTIFICATE` block
with that byte as its content, except the byte 9, which is a `CERTIFICATE`
block with the header `Comment: x` and the content `[7]`. -/
def demoPemBlocks (data : Bytes) : List PemBlock :=
  data.map (fun b =>
    if b = 9 then { Typ := "CERTIFICATE", Headers := [("Comment", "x")], Bytes := [7] }
    else { Typ := "CERTIFICATE", Headers := [], Bytes := [b] })

/-- The toy `x509.ParseCertificate`: only the bytes `[7]` are a certificate. -/
def demoParseCertificate (der : Bytes) : Except GoError X509Certificate :=
  if der = [7] then .ok { Raw := der } else .error (.leaf "x509: malformed certificate")

/-- The toy system with the given environment. -/
def demoSys (environ : String → Option String) : Sys :=
  { environ := environ, ReadFile := demoReadFile, X509KeyPair := demoKeyPair,
    Clean := demoClean, pemBlocks := demoPemBlocks, ParseCertificate := demoParseCertificate }

/-- An environment with the three variables set, the CA path with a `..`
segment. -/
def fullEnv (key : String) : Option String :=
  if key = "CLIENT_CERT_PATH" then some "/etc/tls/client.crt"
  else if key = "CLIENT_KEY_PATH" then some "/etc/tls/client.key"
  else if key = "CA_CERT_PATH" then some "/etc/tls/../tls/ca.pem"
  else none

/-- An environment where `CLIENT_KEY_PATH` is not set. -/
def noKeyEnv (key : String) : Option String :=
  if key = "CLIENT_CERT_PATH" then some "/etc/tls/client.crt"
  else if key = "CA_CERT_PATH" then some "/etc/tls/ca.pem"
  else none

/-- An environment whose CA path names the file whose certificate block
carries a header. -/
def headerCAEnv (key : String) : Option String :=
  if key = "CLIENT_CERT_PATH" then some "/etc/tls/client.crt"
  else if key = "CLIENT_KEY_PATH" then some "/etc/tls/client.key"
  else if key = "CA_CERT_PATH" then some "/etc/tls/headers.pem"
  else none

end Httputil

/-! ## Formatted messages -/

namespace Httputil

theorem sprintf_constructing (u : String) :
    Sprintf "constructing health check request for target %s failed" [.str u]
      = "constructing health check request for target " ++ u ++ " failed" := by
  apply String.ext
  simp [Sprintf, sprintfAux, renderArg]

theorem sprintf_failed (u : String) :
    Sprintf "health check of %s failed" [.str u] = "health check of " ++ u ++ " failed" := by
  apply String.ext
  simp [Sprintf, sprintfAux, renderArg]

theorem sprintf_non200 (u : String) (c : Int) :
    Sprintf "health check of %s returned a non-200 status code (%d)" [.str u, .int c]
      = "health check of " ++ u ++ " returned a non-200 status code (" ++ toString c ++ ")" := by
  apply String.ext
  simp [Sprintf, sprintfAux, renderArg]

theorem sprintf_close (c : GoError) :
    Sprintf "failed to close response body: %w" [.err (some c)]
      = "failed to close response body: " ++ c.Error := by
  apply String.ext
  simp [Sprintf, sprintfAux, renderArg]

theorem sprintf_both (e c : GoError) :
    Sprintf "%v; failed to close response body: %w" [.err (some e), .err (some c)]
      = e.Error ++ "; failed to close response body: " ++ c.Error := by
  apply String.ext
  simp [Sprintf, sprintfAux, renderArg]

theorem sprintf_env (name : String) :
    Sprintf envVariableNotDefinedTemplate [.str name]
      = "env variable " ++ name ++ " not defined" := by
  apply String.ext
  simp [Sprintf, sprintfAux, renderArg, envVariableNotDefinedTemplate]

/-! ## Unwrap chains -/

theorem GoError.self_mem_chain (e : GoError) : e ∈ e.chain := by
  cases e <;> simp [GoError.chain]

theorem is_iff_mem_chain (r target : GoError) :
    Is (some r) target = true ↔ target ∈ r.chain := by
  simp only [Is, List.any_eq_true, beq_iff_eq]
  constructor
  · rintro ⟨x, hx, rfl⟩
    exact hx
  · intro h
    exact ⟨target, h, rfl⟩

/-- The unwrap chain is what repeated `Unwrap` visits: the error, then the
chain of what it unwraps to. -/
theorem GoError.chain_eq_unwrap (e : GoError) :
    e.chain = e :: (match e.Unwrap with
      | none => []
      | some x => x.chain) := by
  cases e <;> simp [GoError.chain, GoError.Unwrap]

end Httputil

/-! ## Health check -/

namespace Httputil

/-- The deferred close never turns an error into nil, and gives nil only for
a nil error and a nil close error. -/
theorem deferredClose_eq_none_iff (err closeErr : Option GoError) :
    deferredClose err closeErr = none ↔ err = none ∧ closeErr = none := by
  cases err <;> cases closeErr <;> simp [deferredClose]

/-- The result of `HealthCheck` when the request cannot be constructed. -/
theorem healthCheck_of_get_error (N : Net) (ctx : Option Context) (url : String) (e : GoError)
    (hg : Get N ctx url = .error e) :
    HealthCheck N ctx url =
      (Wrapf (some e) "constructing health check request for target %s failed" [.str url],
        []) := by
  simp [HealthCheck, hg]

/-- The result of `HealthCheck` when the client fails. -/
theorem healthCheck_of_do_error (N : Net) (ctx : Option Context) (url : String)
    (request : Request) (e : GoError)
    (hg : Get N ctx url = .ok request) (hd : N.clientDo request = .error e) :
    HealthCheck N ctx url =
      (Wrapf (some e) "health check of %s failed" [.str url], [.roundTrip request]) := by
  simp [HealthCheck, hg, hd]

/-- The result of `HealthCheck` when the client returns a response. -/
theorem healthCheck_of_response (N : Net) (ctx : Option Context) (url : String)
    (request : Request) (response : Response)
    (hg : Get N ctx url = .ok request) (hd : N.clientDo request = .ok response) :
    HealthCheck N ctx url =
      (deferredClose
        (if response.StatusCode ≠ 200 then
          some (Errorf "health check of %s returned a non-200 status code (%d)"
            [.str url, .int response.StatusCode])
        else none) response.closeErr,
        [.roundTrip request, .drainBody, .closeBody]) := by
  simp [HealthCheck, hg, hd, StatusOK]

/-- C1: `HealthCheck` returns nil exactly when the GET request is constructed,
the client returns a response, the status code of the response is 200 and
closing the body returns nil; in particular a response with any other status
code (204 included) gives a non-nil error. -/
theorem healthCheck_nil_iff (N : Net) (ctx : Option Context) (url : String) :
    ((HealthCheck N ctx url).1 = none ↔
      ∃ request response, Get N ctx url = .ok request ∧ N.clientDo request = .ok response ∧
        response.StatusCode = 200 ∧ response.closeErr = none) ∧
    (∀ request response, Get N ctx url = .ok request → N.clientDo request = .ok response →
      response.StatusCode ≠ 200 → (HealthCheck N ctx url).1 ≠ none) := by
  cases hg : Get N ctx url with
  | error e =>
    rw [healthCheck_of_get_error N ctx url e hg]
    simp [Wrapf]
  | ok request =>
    cases hd : N.clientDo request with
    | error e =>
      rw [healthCheck_of_do_error N ctx url request e hg hd]
      constructor
      · simp only [Wrapf, reduceCtorEq, false_iff, not_exists, not_and]
        intro rq rs hrq hrs
        cases hrq
        rw [hd] at hrs
        cases hrs
      · intro rq rs hrq hrs
        cases hrq
        rw [hd] at hrs
        cases hrs
    | ok response =>
      rw [healthCheck_of_response N ctx url request response hg hd]
      simp only [deferredClose_eq_none_iff]
      constructor
      · constructor
        · rintro ⟨h1, h2⟩
          refine ⟨request, response, rfl, hd, ?_, h2⟩
          by_contra hne
          simp [hne] at h1
        · rintro ⟨rq, rs, hrq, hrs, hcode, hclose⟩
          cases hrq
          rw [hd] at hrs
          cases hrs
          simp [hcode, hclose]
      · intro rq rs hrq hrs hcode
        cases hrq
        rw [hd] at hrs
        cases hrs
        simp [hcode, deferredClose_eq_none_iff]

/-- A response with status 204 on the toy network: the health check fails. -/
theorem healthCheck_204_fails :
    (HealthCheck demoNet (some background) "http://nocontent").1
      = some (.fundamental
          "health check of http://nocontent returned a non-200 status code (204)") := by
  decide

/-- A response with status 200 on the toy network: the health check succeeds
after the round trip, draining and closing the body. -/
theorem healthCheck_200_succeeds :
    (HealthCheck demoNet (some background) "http://up/health").1 = none ∧
    (HealthCheck demoNet (some background) "http://up/health").2.length = 3 := by
  decide

end Httputil

namespace Httputil

/-- The error `Wrapf` makes keeps the whole unwrap chain of the error it
wraps. -/
theorem chain_wrapf_sublist (e : GoError) (msg : String) :
    ∀ x ∈ e.chain, x ∈ (GoError.withStack (GoError.withMessage e msg)).chain := by
  intro x hx
  simp [GoError.chain, hx]

/-- C2: when the request is built and executed, closing the body succeeds and
the status code `c` is not 200, `HealthCheck` returns an error whose message
is exactly `health check of <url> returned a non-200 status code (<c>)` with
`c` in decimal, so the message contains the URL and the status code. -/
theorem healthCheck_non200_message (N : Net) (ctx : Option Context) (url : String)
    (request : Request) (response : Response)
    (hg : Get N ctx url = .ok request) (hd : N.clientDo request = .ok response)
    (hcode : response.StatusCode ≠ 200) (hclose : response.closeErr = none) :
    ∃ r, (HealthCheck N ctx url).1 = some r ∧
      r.Error = "health check of " ++ url ++ " returned a non-200 status code ("
        ++ toString response.StatusCode ++ ")" ∧
      ∃ before between after,
        r.Error = before ++ url ++ between ++ toString response.StatusCode ++ after := by
  rw [healthCheck_of_response N ctx url request response hg hd]
  refine ⟨Errorf "health check of %s returned a non-200 status code (%d)"
    [.str url, .int response.StatusCode], ?_, ?_, ?_⟩
  · simp [hcode, hclose, deferredClose]
  · simp [Errorf, GoError.Error, sprintf_non200]
  · exact ⟨"health check of ", " returned a non-200 status code (", ")", by
      simp [Errorf, GoError.Error, sprintf_non200]⟩

/-- C2 at a concrete input: the toy host `teapot` answers 418. -/
theorem healthCheck_non200_message_witness :
    ∃ r, (HealthCheck demoNet (some background) "http://teapot").1 = some r ∧
      r.Error = "health check of http://teapot returned a non-200 status code (418)" ∧
      ∃ before between after,
        r.Error = before ++ "http://teapot" ++ between ++ "418" ++ after :=
  healthCheck_non200_message demoNet (some background) "http://teapot" _ _ rfl rfl
    (by decide) rfl

/-- C3: when constructing the request fails with `e`, `HealthCheck` returns
without any round trip an error that wraps `e`; when the client fails with
`e`, it returns right after the round trip (the body is neither drained nor
closed) an error that wraps `e`.  In both cases `e` is in the unwrap chain of
the result, `errors.Is` finds `e` and everything it finds in `e`, and the
message is the contextual text naming the URL, then `: `, then the message of
`e`. -/
theorem healthCheck_wraps_failure (N : Net) (ctx : Option Context) (url : String)
    (e : GoError) :
    (Get N ctx url = .error e →
      ∃ r, HealthCheck N ctx url = (some r, []) ∧
        e ∈ r.chain ∧ Is (some r) e = true ∧
        (∀ target, Is (some e) target = true → Is (some r) target = true) ∧
        r.Error = "constructing health check request for target " ++ url ++ " failed"
          ++ ": " ++ e.Error) ∧
    (∀ request, Get N ctx url = .ok request → N.clientDo request = .error e →
      ∃ r, HealthCheck N ctx url = (some r, [.roundTrip request]) ∧
        e ∈ r.chain ∧ Is (some r) e = true ∧
        (∀ target, Is (some e) target = true → Is (some r) target = true) ∧
        r.Error = "health check of " ++ url ++ " failed" ++ ": " ++ e.Error) := by
  constructor
  · intro hg
    rw [healthCheck_of_get_error N ctx url e hg]
    refine ⟨_, rfl, ?_, ?_, ?_, ?_⟩
    · exact chain_wrapf_sublist e _ e e.self_mem_chain
    · exact (is_iff_mem_chain _ e).2 (chain_wrapf_sublist e _ e e.self_mem_chain)
    · intro target ht
      exact (is_iff_mem_chain _ target).2
        (chain_wrapf_sublist e _ target ((is_iff_mem_chain e target).1 ht))
    · simp [GoError.Error, sprintf_constructing]
  · intro request hg hd
    rw [healthCheck_of_do_error N ctx url request e hg hd]
    refine ⟨_, rfl, ?_, ?_, ?_, ?_⟩
    · exact chain_wrapf_sublist e _ e e.self_mem_chain
    · exact (is_iff_mem_chain _ e).2 (chain_wrapf_sublist e _ e e.self_mem_chain)
    · intro target ht
      exact (is_iff_mem_chain _ target).2
        (chain_wrapf_sublist e _ target ((is_iff_mem_chain e target).1 ht))
    · simp [GoError.Error, sprintf_failed]

/-- C3 at concrete inputs: a URL the toy parser refuses, and a request whose
context has timed out, where `errors.Is` finds `context.DeadlineExceeded`. -/
theorem healthCheck_wraps_failure_witness :
    (∃ r, HealthCheck demoNet (some background) "http://a b" = (some r, []) ∧
      r.Error = "constructing health check request for target http://a b failed: "
        ++ "parse: invalid character in host name") ∧
    (∃ r request, HealthCheck demoNet (some timedOut) "http://up" = (some r, [.roundTrip request]) ∧
      Is (some r) DeadlineExceeded = true ∧
      r.Error = "health check of http://up failed: Get: context deadline exceeded") := by
  constructor
  · obtain ⟨r, h1, _, _, _, h5⟩ :=
      (healthCheck_wraps_failure demoNet (some background) "http://a b" _).1 rfl
    exact ⟨r, h1, by rw [h5]; decide⟩
  · obtain ⟨r, h1, _, _, h4, h5⟩ :=
      (healthCheck_wraps_failure demoNet (some timedOut) "http://up" _).2 _ rfl rfl
    exact ⟨r, _, h1, h4 DeadlineExceeded (by decide), by rw [h5]; decide⟩

/-- C4: when the request was executed and closing the body returns the error
`c`, the result of `HealthCheck` is not nil and has `c` in its unwrap chain.
With status 200 it is `failed to close response body: <c>` wrapping `c`; with
another status its message is the non-200 message, then
`; failed to close response body: `, then the message of `c`. -/
theorem healthCheck_close_error (N : Net) (ctx : Option Context) (url : String)
    (request : Request) (response : Response) (c : GoError)
    (hg : Get N ctx url = .ok request) (hd : N.clientDo request = .ok response)
    (hclose : response.closeErr = some c) :
    ∃ r, (HealthCheck N ctx url).1 = some r ∧
      c ∈ r.chain ∧ Is (some r) c = true ∧ r.Unwrap = some c ∧
      (response.StatusCode = 200 →
        r.Error = "failed to close response body: " ++ c.Error) ∧
      (response.StatusCode ≠ 200 →
        r.Error = "health check of " ++ url ++ " returned a non-200 status code ("
          ++ toString response.StatusCode ++ ")"
          ++ "; failed to close response body: " ++ c.Error) := by
  rw [healthCheck_of_response N ctx url request response hg hd, hclose]
  by_cases hcode : response.StatusCode = 200
  · refine ⟨fmtErrorf "failed to close response body: %w" [.err (some c)] c, ?_, ?_, ?_, ?_, ?_, ?_⟩
    · simp [hcode, deferredClose]
    · simp [fmtErrorf, GoError.chain, c.self_mem_chain]
    · exact (is_iff_mem_chain _ c).2 (by simp [fmtErrorf, GoError.chain, c.self_mem_chain])
    · simp [fmtErrorf, GoError.Unwrap]
    · intro _
      simp [fmtErrorf, GoError.Error, sprintf_close]
    · intro h
      exact absurd hcode h
  · refine ⟨fmtErrorf "%v; failed to close response body: %w"
      [.err (some (Errorf "health check of %s returned a non-200 status code (%d)"
        [.str url, .int response.StatusCode])), .err (some c)] c, ?_, ?_, ?_, ?_, ?_, ?_⟩
    · simp [hcode, deferredClose]
    · simp [fmtErrorf, GoError.chain, c.self_mem_chain]
    · exact (is_iff_mem_chain _ c).2 (by simp [fmtErrorf, GoError.chain, c.self_mem_chain])
    · simp [fmtErrorf, GoError.Unwrap]
    · intro h
      exact absurd h hcode
    · intro _
      simp [fmtErrorf, GoError.Error, sprintf_both, Errorf, sprintf_non200]

/-- C4 at a concrete input: the toy host `down` answers 503 and its body
fails to close. -/
theorem healthCheck_close_error_witness :
    ∃ r, (HealthCheck demoNet (some background) "http://down").1 = some r ∧
      Is (some r) closeFailure = true ∧
      r.Error = "health check of http://down returned a non-200 status code (503)"
        ++ "; failed to close response body: close: connection reset" := by
  obtain ⟨r, h1, _, h3, _, _, h6⟩ :=
    healthCheck_close_error demoNet (some background) "http://down" _ _ closeFailure rfl rfl rfl
  exact ⟨r, h1, h3, by rw [h6 (by decide)]; decide⟩

end Httputil

/-! ## Request builders -/

namespace Httputil

theorem knownLength_eq_some (b : Reader) (n : Nat) (h : knownLength b = some n) :
    b.data.length = n := by
  unfold knownLength at h
  split at h <;> simp_all

theorem newRequest_ok_fields (N : Net) (ctx : Option Context) (method url : String)
    (body : Option Reader) (r : Request) (hm : method ≠ "")
    (h : NewRequestWithContext N ctx method url body = .ok r) :
    Carries N r method ctx url ∧ r.Header = [] ∧
      (body = none → r.Body = none) ∧
      (∀ b, body = some b → ∃ rc, r.Body = some rc ∧ rc.ReadAll = b.ReadAll) := by
  unfold NewRequestWithContext at h
  simp only [hm, if_false] at h
  split at h
  · cases h
  · cases ctx with
    | none => cases h
    | some c =>
      simp only at h
      cases hp : N.urlParse url with
      | error err => rw [hp] at h; cases h
      | ok u =>
        rw [hp] at h
        simp only at h
        cases body with
        | none =>
          simp only [Except.ok.injEq] at h
          subst h
          simp [Carries, hp]
        | some b =>
          simp only at h
          cases hk : knownLength b with
          | none =>
            rw [hk] at h
            simp only [Except.ok.injEq] at h
            subst h
            simp [Carries, hp]
            split <;> simp [Body.ReadAll]
          | some n =>
            rw [hk] at h
            simp only at h
            split at h
            · simp only [Except.ok.injEq] at h
              subst h
              have hlen := knownLength_eq_some b n hk
              simp_all [Carries, Body.ReadAll, Reader.ReadAll]
            · simp only [Except.ok.injEq] at h
              subst h
              simp [Carries, hp]
              split <;> simp [Body.ReadAll]
end Httputil

namespace Httputil

theorem header_values_set (h : Header) (key value : String) :
    (h.Set key value).Values key = [value] := by
  simp [Header.Set, Header.Values, List.lookup]

theorem header_get_set (h : Header) (key value : String) :
    (h.Set key value).Get key = value := by
  simp [Header.Get, header_values_set]

theorem post_eq (N : Net) (ctx : Option Context) (url contentType : String)
    (body : Option Reader) :
    Post N ctx url contentType body =
      (NewRequestWithContext N ctx "POST" url body).map (withContentType contentType) := by
  unfold Post MethodPost
  cases NewRequestWithContext N ctx "POST" url body <;> rfl

theorem put_eq (N : Net) (ctx : Option Context) (url contentType : String)
    (body : Option Reader) :
    Put N ctx url contentType body =
      (NewRequestWithContext N ctx "PUT" url body).map (withContentType contentType) := by
  unfold Put MethodPut
  cases NewRequestWithContext N ctx "PUT" url body <;> rfl

theorem map_ok_inv {α β : Type} (f : α → β) (x : Except GoError α) (b : β)
    (h : x.map f = .ok b) : ∃ a, x = .ok a ∧ b = f a := by
  cases x with
  | error e => cases h
  | ok a =>
    refine ⟨a, rfl, ?_⟩
    simp only [Except.map, Except.ok.injEq] at h
    exact h.symm

/-- C5, amended: `Get`, `Post` and `Put` are `http.NewRequestWithContext` with
the method GET, POST and PUT (`Get` with a nil body and no header, `Post` and
`Put` followed by setting `Content-Type`), so a constructor error is returned
unchanged, and a returned request has exactly that method, the supplied
context and, as URL, the one parsed from the supplied string with an empty
port removed from its host. -/
theorem builders_carry_method_ctx_url (N : Net) (ctx : Option Context)
    (url contentType : String) (body : Option Reader) :
    (Get N ctx url = NewRequestWithContext N ctx "GET" url none ∧
      ∀ r, Get N ctx url = .ok r →
        Carries N r "GET" ctx url ∧ r.Body = none ∧ r.Header = []) ∧
    (Post N ctx url contentType body =
        (NewRequestWithContext N ctx "POST" url body).map (withContentType contentType) ∧
      (∀ e, NewRequestWithContext N ctx "POST" url body = .error e →
        Post N ctx url contentType body = .error e) ∧
      ∀ r, Post N ctx url contentType body = .ok r → Carries N r "POST" ctx url) ∧
    (Put N ctx url contentType body =
        (NewRequestWithContext N ctx "PUT" url body).map (withContentType contentType) ∧
      (∀ e, NewRequestWithContext N ctx "PUT" url body = .error e →
        Put N ctx url contentType body = .error e) ∧
      ∀ r, Put N ctx url contentType body = .ok r → Carries N r "PUT" ctx url) := by
  refine ⟨⟨rfl, ?_⟩, ⟨post_eq N ctx url contentType body, ?_, ?_⟩,
    ⟨put_eq N ctx url contentType body, ?_, ?_⟩⟩
  · intro r h
    have := newRequest_ok_fields N ctx "GET" url none r (by decide) h
    exact ⟨this.1, this.2.2.1 rfl, this.2.1⟩
  · intro e h
    rw [post_eq, h]; rfl
  · intro r h
    rw [post_eq] at h
    obtain ⟨r0, h0, rfl⟩ := map_ok_inv _ _ _ h
    exact (newRequest_ok_fields N ctx "POST" url body r0 (by decide) h0).1
  · intro e h
    rw [put_eq, h]; rfl
  · intro r h
    rw [put_eq] at h
    obtain ⟨r0, h0, rfl⟩ := map_ok_inv _ _ _ h
    exact (newRequest_ok_fields N ctx "PUT" url body r0 (by decide) h0).1

/-- C5 at the input of the tests: the three builders on
`http://localhost:8000` with the background context. -/
theorem builders_carry_method_ctx_url_witness :
    (∃ r, Get demoNet (some background) "http://localhost:8000" = .ok r ∧
      r.Method = "GET" ∧ r.ctx = some background ∧ r.URL.Host = "localhost:8000") ∧
    (∃ r, Post demoNet (some background) "http://localhost:8000" "application/json"
        (some jsonBody) = .ok r ∧
      r.Method = "POST" ∧ r.ctx = some background ∧ r.URL.Host = "localhost:8000") ∧
    (∃ r, Put demoNet (some background) "http://localhost:8000" "application/json"
        (some jsonBody) = .ok r ∧
      r.Method = "PUT" ∧ r.ctx = some background ∧ r.URL.Host = "localhost:8000") := by
  have h := builders_carry_method_ctx_url demoNet (some background) "http://localhost:8000"
    "application/json" (some jsonBody)
  refine ⟨⟨_, rfl, ?_⟩, ⟨_, rfl, ?_⟩, ⟨_, rfl, ?_⟩⟩
  · obtain ⟨⟨hm, hc, u, hu, hurl⟩, _⟩ := h.1.2 _ rfl
    exact ⟨hm, hc, by rw [hurl]; cases hu; rfl⟩
  · obtain ⟨hm, hc, u, hu, hurl⟩ := h.2.1.2.2 _ rfl
    exact ⟨hm, hc, by rw [hurl]; cases hu; rfl⟩
  · obtain ⟨hm, hc, u, hu, hurl⟩ := h.2.2.2.2 _ rfl
    exact ⟨hm, hc, by rw [hurl]; cases hu; rfl⟩

/-- C5, as stated, fails for the URL: on `http://localhost:/x` the parser gives
the host `localhost:`, the constructor drops the empty port, and the request
`Get` returns has the host `localhost`, so its URL is not the one parsed from
the supplied string. -/
theorem get_url_differs_from_supplied :
    (∃ r u, Get demoNet (some background) "http://localhost:/x" = .ok r ∧
      demoNet.urlParse "http://localhost:/x" = .ok u ∧
      u.Host = "localhost:" ∧ r.URL.Host = "localhost" ∧ r.URL ≠ u) ∧
    ¬ (∀ r, Get demoNet (some background) "http://localhost:/x" = .ok r →
      r.Method = "GET" ∧ r.ctx = some background ∧
        ∃ u, demoNet.urlParse "http://localhost:/x" = .ok u ∧ r.URL = u) := by
  have hget : Get demoNet (some background) "http://localhost:/x" =
      .ok { ctx := some background, Method := "GET",
            URL := { Scheme := "http", Opaque := "", Host := "localhost", Path := "/x",
                     RawQuery := "", Fragment := "" },
            Proto := "HTTP/1.1", ProtoMajor := 1, ProtoMinor := 1, Header := [],
            Body := none, hasGetBody := false, ContentLength := 0, Host := "localhost" } := rfl
  have hparse : demoNet.urlParse "http://localhost:/x" =
      .ok { Scheme := "http", Opaque := "", Host := "localhost:", Path := "/x",
            RawQuery := "", Fragment := "" } := rfl
  constructor
  · exact ⟨_, _, hget, hparse, rfl, rfl, by decide⟩
  · intro h
    obtain ⟨_, _, u, hu, hurl⟩ := h _ hget
    rw [hparse] at hu
    simp only [Except.ok.injEq] at hu
    subst hu
    exact absurd hurl (by decide)

/-- C6: when `Post` or `Put` succeeds, the `Content-Type` header of the
request has exactly the one value supplied, whatever the header held before
`Set`, and the bytes read back from the body of the request are the bytes of
the supplied body. -/
theorem post_put_content_type_and_body (N : Net) (ctx : Option Context)
    (url contentType : String) (body : Reader) :
    (∀ r, Post N ctx url contentType (some body) = .ok r →
      r.Header.Values "Content-Type" = [contentType] ∧
      r.Header.Get "Content-Type" = contentType ∧
      ∃ rc, r.Body = some rc ∧ rc.ReadAll = body.ReadAll) ∧
    (∀ r, Put N ctx url contentType (some body) = .ok r →
      r.Header.Values "Content-Type" = [contentType] ∧
      r.Header.Get "Content-Type" = contentType ∧
      ∃ rc, r.Body = some rc ∧ rc.ReadAll = body.ReadAll) ∧
    (∀ h : Header, (h.Set "Content-Type" contentType).Values "Content-Type" = [contentType]) := by
  refine ⟨?_, ?_, fun h => header_values_set h _ _⟩
  · intro r h
    rw [post_eq] at h
    obtain ⟨r0, h0, rfl⟩ := map_ok_inv _ _ _ h
    have := newRequest_ok_fields N ctx "POST" url (some body) r0 (by decide) h0
    exact ⟨header_values_set _ _ _, header_get_set _ _ _, this.2.2.2 body rfl⟩
  · intro r h
    rw [put_eq] at h
    obtain ⟨r0, h0, rfl⟩ := map_ok_inv _ _ _ h
    have := newRequest_ok_fields N ctx "PUT" url (some body) r0 (by decide) h0
    exact ⟨header_values_set _ _ _, header_get_set _ _ _, this.2.2.2 body rfl⟩

/-- C6 at the input of the tests: content type `application/json` and the
body `body`. -/
theorem post_put_content_type_and_body_witness :
    (∃ r, Post demoNet (some background) "http://localhost:8000" "application/json"
        (some jsonBody) = .ok r ∧ r.Header.Get "Content-Type" = "application/json" ∧
      ∃ rc, r.Body = some rc ∧ rc.ReadAll = [98, 111, 100, 121]) ∧
    (∃ r, Put demoNet (some background) "http://localhost:8000" "application/json"
        (some jsonBody) = .ok r ∧ r.Header.Get "Content-Type" = "application/json" ∧
      ∃ rc, r.Body = some rc ∧ rc.ReadAll = [98, 111, 100, 121]) := by
  have h := post_put_content_type_and_body demoNet (some background) "http://localhost:8000"
    "application/json" jsonBody
  exact ⟨⟨_, rfl, (h.1 _ rfl).2.1, (h.1 _ rfl).2.2⟩,
    ⟨_, rfl, (h.2.1 _ rfl).2.1, (h.2.1 _ rfl).2.2⟩⟩

end Httputil

/-! ## TLS client configuration -/

namespace Httputil

theorem getenv_eq_empty_iff (S : Sys) (key : String) :
    Getenv S key = "" ↔ unsetOrEmpty S key := by
  unfold Getenv unsetOrEmpty
  cases S.environ key <;> simp

theorem envVariableNotDefined_error (name : String) :
    (EnvVariableNotDefined name).Error = "env variable " ++ name ++ " not defined" := by
  simp [EnvVariableNotDefined, Errorf, GoError.Error, sprintf_env]

/-- The events of loading the key pair start with the read of the certificate
file and hold nothing but reads of the two files. -/
theorem loadX509KeyPair_events (S : Sys) (certFile keyFile : String) :
    (LoadX509KeyPair S certFile keyFile).2 = [.read certFile] ∨
      (LoadX509KeyPair S certFile keyFile).2 = [.read certFile, .read keyFile] := by
  unfold LoadX509KeyPair
  cases S.ReadFile certFile with
  | error e => simp
  | ok a => cases S.ReadFile keyFile <;> simp

theorem newTLSConfig_of_pair_error (S : Sys) (c k ca : String) (e : GoError)
    (h : (LoadX509KeyPair S c k).1 = .error e) :
    NewTLSConfig S c k ca = (.error e, (LoadX509KeyPair S c k).2) := by
  unfold NewTLSConfig
  rcases hl : LoadX509KeyPair S c k with ⟨res, reads⟩
  rw [hl] at h
  simp only at h
  subst h
  rfl

theorem newTLSConfig_of_ca_error (S : Sys) (c k ca : String) (cert : Certificate)
    (e : GoError) (h : (LoadX509KeyPair S c k).1 = .ok cert)
    (hca : S.ReadFile (S.Clean ca) = .error e) :
    NewTLSConfig S c k ca =
      (.error e, (LoadX509KeyPair S c k).2 ++ [.read (S.Clean ca)]) := by
  unfold NewTLSConfig
  rcases hl : LoadX509KeyPair S c k with ⟨res, reads⟩
  rw [hl] at h
  simp only at h
  subst h
  simp [hca]

theorem newTLSConfig_of_ok (S : Sys) (c k ca : String) (cert : Certificate)
    (caCert : Bytes) (h : (LoadX509KeyPair S c k).1 = .ok cert)
    (hca : S.ReadFile (S.Clean ca) = .ok caCert) :
    NewTLSConfig S c k ca =
      (.ok { MinVersion := VersionTLS12, Certificates := [cert],
             RootCAs := some (AppendCertsFromPEM S NewCertPool caCert).1 },
        (LoadX509KeyPair S c k).2 ++ [.read (S.Clean ca)]) := by
  unfold NewTLSConfig
  rcases hl : LoadX509KeyPair S c k with ⟨res, reads⟩
  rw [hl] at h
  simp only at h
  subst h
  simp [hca]

theorem newTLSConfig_events_ne_nil (S : Sys) (c k ca : String) :
    (NewTLSConfig S c k ca).2 ≠ [] := by
  have hev := loadX509KeyPair_events S c k
  cases hp : (LoadX509KeyPair S c k).1 with
  | error e =>
    rw [newTLSConfig_of_pair_error S c k ca e hp]
    rcases hev with h | h <;> simp [h]
  | ok cert =>
    cases hca : S.ReadFile (S.Clean ca) with
    | error e => rw [newTLSConfig_of_ca_error S c k ca cert e hp hca]; simp
    | ok d => rw [newTLSConfig_of_ok S c k ca cert d hp hca]; simp

/-- C7: `NewTLSConfigFromEnv` fails before any file is read exactly when one
of `CLIENT_CERT_PATH`, `CLIENT_KEY_PATH`, `CA_CERT_PATH` is unset or empty; the
error is then `env variable <NAME> not defined` for the first such variable in
that order, with no file read.  When the three are set and not empty the result
is that of `NewTLSConfig` on the three values. -/
theorem newTLSConfigFromEnv_env_check (S : Sys) :
    (unsetOrEmpty S "CLIENT_CERT_PATH" →
      NewTLSConfigFromEnv S = (.error (EnvVariableNotDefined "CLIENT_CERT_PATH"), [])) ∧
    (¬ unsetOrEmpty S "CLIENT_CERT_PATH" → unsetOrEmpty S "CLIENT_KEY_PATH" →
      NewTLSConfigFromEnv S = (.error (EnvVariableNotDefined "CLIENT_KEY_PATH"), [])) ∧
    (¬ unsetOrEmpty S "CLIENT_CERT_PATH" → ¬ unsetOrEmpty S "CLIENT_KEY_PATH" →
      unsetOrEmpty S "CA_CERT_PATH" →
      NewTLSConfigFromEnv S = (.error (EnvVariableNotDefined "CA_CERT_PATH"), [])) ∧
    (∀ c k ca, S.environ "CLIENT_CERT_PATH" = some c → S.environ "CLIENT_KEY_PATH" = some k →
      S.environ "CA_CERT_PATH" = some ca → c ≠ "" → k ≠ "" → ca ≠ "" →
      NewTLSConfigFromEnv S = NewTLSConfig S c k ca) ∧
    ((∃ e, NewTLSConfigFromEnv S = (.error e, [])) ↔
      (unsetOrEmpty S "CLIENT_CERT_PATH" ∨ unsetOrEmpty S "CLIENT_KEY_PATH" ∨
        unsetOrEmpty S "CA_CERT_PATH")) ∧
    (∀ name, (EnvVariableNotDefined name).Error = "env variable " ++ name ++ " not defined") := by
  have h1 : unsetOrEmpty S "CLIENT_CERT_PATH" →
      NewTLSConfigFromEnv S = (.error (EnvVariableNotDefined "CLIENT_CERT_PATH"), []) := by
    intro h
    simp [NewTLSConfigFromEnv, clientCertFileEnvKey, (getenv_eq_empty_iff S _).2 h]
  have h2 : ¬ unsetOrEmpty S "CLIENT_CERT_PATH" → unsetOrEmpty S "CLIENT_KEY_PATH" →
      NewTLSConfigFromEnv S = (.error (EnvVariableNotDefined "CLIENT_KEY_PATH"), []) := by
    intro hc h
    have hc2 : ¬ Getenv S "CLIENT_CERT_PATH" = "" := fun x => hc ((getenv_eq_empty_iff S _).1 x)
    simp [NewTLSConfigFromEnv, clientCertFileEnvKey, clientKeyFileEnvKey, hc2,
      (getenv_eq_empty_iff S _).2 h]
  have h3 : ¬ unsetOrEmpty S "CLIENT_CERT_PATH" → ¬ unsetOrEmpty S "CLIENT_KEY_PATH" →
      unsetOrEmpty S "CA_CERT_PATH" →
      NewTLSConfigFromEnv S = (.error (EnvVariableNotDefined "CA_CERT_PATH"), []) := by
    intro hc hk h
    have hc2 : ¬ Getenv S "CLIENT_CERT_PATH" = "" := fun x => hc ((getenv_eq_empty_iff S _).1 x)
    have hk2 : ¬ Getenv S "CLIENT_KEY_PATH" = "" := fun x => hk ((getenv_eq_empty_iff S _).1 x)
    simp [NewTLSConfigFromEnv, clientCertFileEnvKey, clientKeyFileEnvKey, caCertFileEnvKey,
      hc2, hk2, (getenv_eq_empty_iff S _).2 h]
  have h4 : ∀ c k ca, S.environ "CLIENT_CERT_PATH" = some c →
      S.environ "CLIENT_KEY_PATH" = some k → S.environ "CA_CERT_PATH" = some ca →
      c ≠ "" → k ≠ "" → ca ≠ "" → NewTLSConfigFromEnv S = NewTLSConfig S c k ca := by
    intro c k ca hc hk hca hc2 hk2 hca2
    simp [NewTLSConfigFromEnv, clientCertFileEnvKey, clientKeyFileEnvKey, caCertFileEnvKey,
      Getenv, hc, hk, hca, hc2, hk2, hca2]
  refine ⟨h1, h2, h3, h4, ?_, envVariableNotDefined_error⟩
  constructor
  · rintro ⟨e, he⟩
    by_contra hno
    simp only [not_or] at hno
    obtain ⟨n1, n2, n3⟩ := hno
    have g : ∀ key, ¬ unsetOrEmpty S key → ∃ v, S.environ key = some v ∧ v ≠ "" := by
      intro key hk
      unfold unsetOrEmpty at hk
      cases hv : S.environ key with
      | none => simp [hv] at hk
      | some v => exact ⟨v, rfl, fun hv2 => hk (Or.inr (by rw [hv, hv2]))⟩
    obtain ⟨c, hc, hc2⟩ := g _ n1
    obtain ⟨k, hk, hk2⟩ := g _ n2
    obtain ⟨ca, hca, hca2⟩ := g _ n3
    rw [h4 c k ca hc hk hca hc2 hk2 hca2] at he
    exact newTLSConfig_events_ne_nil S c k ca (by rw [he])
  · intro h
    by_cases n1 : unsetOrEmpty S "CLIENT_CERT_PATH"
    · exact ⟨_, h1 n1⟩
    · by_cases n2 : unsetOrEmpty S "CLIENT_KEY_PATH"
      · exact ⟨_, h2 n1 n2⟩
      · have n3 : unsetOrEmpty S "CA_CERT_PATH" := by
          rcases h with h | h | h
          · exact absurd h n1
          · exact absurd h n2
          · exact h
        exact ⟨_, h3 n1 n2 n3⟩


/-- C7 at concrete inputs: with `CLIENT_KEY_PATH` not set the call fails
naming that variable and reads no file; with the three variables set it is
`NewTLSConfig` on their values. -/
theorem newTLSConfigFromEnv_env_check_witness :
    NewTLSConfigFromEnv (demoSys noKeyEnv)
      = (.error (.fundamental "env variable CLIENT_KEY_PATH not defined"), []) ∧
    NewTLSConfigFromEnv (demoSys fullEnv)
      = NewTLSConfig (demoSys fullEnv) "/etc/tls/client.crt" "/etc/tls/client.key"
          "/etc/tls/../tls/ca.pem" := by
  constructor
  · exact (newTLSConfigFromEnv_env_check (demoSys noKeyEnv)).2.1
      (by simp [unsetOrEmpty, demoSys, noKeyEnv]) (by simp [unsetOrEmpty, demoSys, noKeyEnv])
  · exact (newTLSConfigFromEnv_env_check (demoSys fullEnv)).2.2.2.1 _ _ _ rfl rfl rfl
      (by decide) (by decide) (by decide)

/-! ### The trust pool -/

theorem addCert_mem (s : CertPool) (cert : X509Certificate) :
    cert ∈ (s.AddCert cert).certs := by
  unfold CertPool.AddCert
  split
  · rename_i h
    simp only [List.any_eq_true, beq_iff_eq] at h
    obtain ⟨c, hc, hraw⟩ := h
    have : c = cert := by
      cases c; cases cert; simp_all
    exact this ▸ hc
  · simp

theorem addCert_mono (s : CertPool) (cert x : X509Certificate) (hx : x ∈ s.certs) :
    x ∈ (s.AddCert cert).certs := by
  unfold CertPool.AddCert
  split
  · exact hx
  · simp [hx]

theorem addCert_origin (s : CertPool) (cert x : X509Certificate)
    (hx : x ∈ (s.AddCert cert).certs) : x ∈ s.certs ∨ x = cert := by
  unfold CertPool.AddCert at hx
  split at hx
  · exact Or.inl hx
  · simpa using hx

theorem appendBlock_mono (S : Sys) (acc : CertPool × Bool) (block : PemBlock)
    (x : X509Certificate) (hx : x ∈ acc.1.certs) : x ∈ (appendBlock S acc block).1.certs := by
  unfold appendBlock
  split
  · exact hx
  · split
    · exact hx
    · exact addCert_mono _ _ _ hx

theorem appendBlock_valid (S : Sys) (acc : CertPool × Bool) (block : PemBlock)
    (cert : X509Certificate) (hv : validBlock S block cert) :
    cert ∈ (appendBlock S acc block).1.certs := by
  obtain ⟨h1, h2, h3⟩ := hv
  unfold appendBlock
  rw [if_neg (by simp [h1, h2]), h3]
  exact addCert_mem _ _

theorem appendBlock_origin (S : Sys) (acc : CertPool × Bool) (block : PemBlock)
    (x : X509Certificate) (hx : x ∈ (appendBlock S acc block).1.certs) :
    x ∈ acc.1.certs ∨ validBlock S block x := by
  unfold appendBlock at hx
  split at hx
  · exact Or.inl hx
  · rename_i hcond
    simp only [not_or, not_not] at hcond
    cases hp : S.ParseCertificate block.Bytes with
    | error e =>
      rw [hp] at hx
      exact Or.inl hx
    | ok cert =>
      rw [hp] at hx
      rcases addCert_origin _ _ _ hx with h | h
      · exact Or.inl h
      · subst h
        exact Or.inr ⟨hcond.1, hcond.2, hp⟩

theorem foldl_appendBlock_mono (S : Sys) (blocks : List PemBlock) :
    ∀ (acc : CertPool × Bool) (x : X509Certificate), x ∈ acc.1.certs →
      x ∈ (blocks.foldl (appendBlock S) acc).1.certs := by
  induction blocks with
  | nil => intro acc x hx; exact hx
  | cons b bs ih =>
    intro acc x hx
    exact ih _ x (appendBlock_mono S acc b x hx)

theorem foldl_appendBlock_valid (S : Sys) (blocks : List PemBlock) :
    ∀ (acc : CertPool × Bool) (block : PemBlock) (cert : X509Certificate),
      block ∈ blocks → validBlock S block cert →
      cert ∈ (blocks.foldl (appendBlock S) acc).1.certs := by
  induction blocks with
  | nil => intro acc block cert hb; cases hb
  | cons b bs ih =>
    intro acc block cert hb hv
    rcases List.mem_cons.1 hb with h | h
    · subst h
      exact foldl_appendBlock_mono S bs _ cert (appendBlock_valid S acc block cert hv)
    · exact ih _ block cert h hv

theorem foldl_appendBlock_origin (S : Sys) (blocks : List PemBlock) :
    ∀ (acc : CertPool × Bool) (x : X509Certificate),
      x ∈ (blocks.foldl (appendBlock S) acc).1.certs →
      x ∈ acc.1.certs ∨ ∃ block ∈ blocks, validBlock S block x := by
  induction blocks with
  | nil => intro acc x hx; exact Or.inl hx
  | cons b bs ih =>
    intro acc x hx
    rcases ih _ x hx with h | ⟨block, hb, hv⟩
    · rcases appendBlock_origin S acc b x h with h2 | h2
      · exact Or.inl h2
      · exact Or.inr ⟨b, List.mem_cons_self _ _, h2⟩
    · exact Or.inr ⟨block, List.mem_cons_of_mem _ hb, hv⟩

/-- The certificates of the pool `AppendCertsFromPEM` fills from an empty pool
are exactly those of the valid blocks of the data. -/
theorem mem_appendCertsFromPEM (S : Sys) (pemCerts : Bytes) (x : X509Certificate) :
    x ∈ (AppendCertsFromPEM S NewCertPool pemCerts).1.certs ↔
      ∃ block ∈ S.pemBlocks pemCerts, validBlock S block x := by
  unfold AppendCertsFromPEM
  constructor
  · intro hx
    rcases foldl_appendBlock_origin S _ _ x hx with h | h
    · simp [NewCertPool] at h
    · exact h
  · rintro ⟨block, hb, hv⟩
    exact foldl_appendBlock_valid S _ _ block x hb hv

/-- C8: on success the configuration of `NewTLSConfig` has `MinVersion` TLS 1.2,
as `Certificates` the one key pair loaded from the client certificate and key
paths, as `RootCAs` the pool obtained by appending the PEM contents of the
file at the cleaned CA path to a fresh pool, and every other field at its zero
value. -/
theorem newTLSConfig_success_shape (S : Sys) (c k ca : String) (cfg : Config)
    (h : (NewTLSConfig S c k ca).1 = .ok cfg) :
    ∃ cert caCert, (LoadX509KeyPair S c k).1 = .ok cert ∧
      S.ReadFile (S.Clean ca) = .ok caCert ∧
      cfg = { MinVersion := VersionTLS12, Certificates := [cert],
              RootCAs := some (AppendCertsFromPEM S NewCertPool caCert).1 } ∧
      cfg.MinVersion = 771 ∧ cfg.Certificates = [cert] ∧ cfg.Certificates.length = 1 ∧
      cfg.RootCAs = some (AppendCertsFromPEM S NewCertPool caCert).1 := by
  cases hp : (LoadX509KeyPair S c k).1 with
  | error e =>
    rw [newTLSConfig_of_pair_error S c k ca e hp] at h
    cases h
  | ok cert =>
    cases hca : S.ReadFile (S.Clean ca) with
    | error e =>
      rw [newTLSConfig_of_ca_error S c k ca cert e hp hca] at h
      cases h
    | ok caCert =>
      rw [newTLSConfig_of_ok S c k ca cert caCert hp hca] at h
      simp only [Except.ok.injEq] at h
      subst h
      exact ⟨cert, caCert, rfl, rfl, rfl, rfl, rfl, rfl, rfl⟩

/-- C8 at a concrete input: the toy files, the CA path with a `..` segment;
the configuration holds the toy key pair and the one certificate of the CA
file that parses. -/
theorem newTLSConfig_success_shape_witness :
    ∃ cert caCert,
      (LoadX509KeyPair (demoSys fullEnv) "/etc/tls/client.crt" "/etc/tls/client.key").1
        = .ok cert ∧
      (demoSys fullEnv).ReadFile ((demoSys fullEnv).Clean "/etc/tls/../tls/ca.pem")
        = .ok caCert ∧
      ({ MinVersion := 771,
         Certificates := [{ Chain := [[1, 2, 3]], PrivateKey := [4, 5, 6] }],
         RootCAs := some { certs := [{ Raw := [7] }] } } : Config)
        = { MinVersion := VersionTLS12, Certificates := [cert],
            RootCAs := some (AppendCertsFromPEM (demoSys fullEnv) NewCertPool caCert).1 } ∧
      (771 : Nat) = 771 ∧
      [({ Chain := [[1, 2, 3]], PrivateKey := [4, 5, 6] } : Certificate)] = [cert] ∧
      [({ Chain := [[1, 2, 3]], PrivateKey := [4, 5, 6] } : Certificate)].length = 1 ∧
      some ({ certs := [{ Raw := [7] }] } : CertPool)
        = some (AppendCertsFromPEM (demoSys fullEnv) NewCertPool caCert).1 :=
  newTLSConfig_success_shape (demoSys fullEnv) "/etc/tls/client.crt" "/etc/tls/client.key"
    "/etc/tls/../tls/ca.pem"
    { MinVersion := 771,
      Certificates := [{ Chain := [[1, 2, 3]], PrivateKey := [4, 5, 6] }],
      RootCAs := some { certs := [{ Raw := [7] }] } } rfl

/-- C10: `NewTLSConfig` fails exactly when loading the key pair fails or
reading the file at the cleaned CA path fails.  A key pair error is returned
unchanged and nothing is read beyond what loading the key pair read; a CA read
error is returned unchanged.  Once the key pair loads and the CA file is read,
the call succeeds whatever the file holds, and the pool holds the certificate
of every valid block of the file, malformed blocks being skipped. -/
theorem newTLSConfig_failure_cases (S : Sys) (c k ca : String) :
    ((∃ e, (NewTLSConfig S c k ca).1 = .error e) ↔
      ((∃ e, (LoadX509KeyPair S c k).1 = .error e) ∨
        ∃ e, S.ReadFile (S.Clean ca) = .error e)) ∧
    (∀ e, (LoadX509KeyPair S c k).1 = .error e →
      NewTLSConfig S c k ca = (.error e, (LoadX509KeyPair S c k).2) ∧
      ∀ ev ∈ (NewTLSConfig S c k ca).2, ev = .read c ∨ ev = .read k) ∧
    (∀ cert e, (LoadX509KeyPair S c k).1 = .ok cert → S.ReadFile (S.Clean ca) = .error e →
      (NewTLSConfig S c k ca).1 = .error e) ∧
    (∀ cert caCert, (LoadX509KeyPair S c k).1 = .ok cert →
      S.ReadFile (S.Clean ca) = .ok caCert →
      ∃ cfg pool, (NewTLSConfig S c k ca).1 = .ok cfg ∧ cfg.RootCAs = some pool ∧
        (∀ block ∈ S.pemBlocks caCert, ∀ x, validBlock S block x → x ∈ pool.certs) ∧
        (∀ valid malformed x, validBlock S valid x →
          (∀ y, S.ParseCertificate malformed.Bytes ≠ .ok y) →
          (S.pemBlocks caCert = [valid, malformed] ∨ S.pemBlocks caCert = [malformed, valid]) →
          pool.certs = [x])) := by
  have hpair : ∀ e, (LoadX509KeyPair S c k).1 = .error e →
      NewTLSConfig S c k ca = (.error e, (LoadX509KeyPair S c k).2) ∧
      ∀ ev ∈ (NewTLSConfig S c k ca).2, ev = .read c ∨ ev = .read k := by
    intro e he
    refine ⟨newTLSConfig_of_pair_error S c k ca e he, ?_⟩
    rw [newTLSConfig_of_pair_error S c k ca e he]
    intro ev hev
    rcases loadX509KeyPair_events S c k with h | h <;> rw [h] at hev <;> simp at hev <;> tauto
  refine ⟨?_, hpair, ?_, ?_⟩
  · cases hp : (LoadX509KeyPair S c k).1 with
    | error e =>
      rw [(hpair e hp).1]
      simp
    | ok cert =>
      cases hca : S.ReadFile (S.Clean ca) with
      | error e => rw [newTLSConfig_of_ca_error S c k ca cert e hp hca]; simp
      | ok d => rw [newTLSConfig_of_ok S c k ca cert d hp hca]; simp
  · intro cert e hp hca
    rw [newTLSConfig_of_ca_error S c k ca cert e hp hca]
  · intro cert caCert hp hca
    rw [newTLSConfig_of_ok S c k ca cert caCert hp hca]
    refine ⟨_, _, rfl, rfl, ?_, ?_⟩
    · intro block hb x hv
      exact (mem_appendCertsFromPEM S caCert x).2 ⟨block, hb, hv⟩
    · intro valid malformed x hv hm hblocks
      obtain ⟨h1, h2, h3⟩ := hv
      have hskip : ∀ acc, appendBlock S acc malformed = acc := by
        intro acc
        unfold appendBlock
        split
        · rfl
        · cases hq : S.ParseCertificate malformed.Bytes with
          | error e => rfl
          | ok y => exact absurd hq (hm y)
      have hadd : appendBlock S (NewCertPool, false) valid = (⟨[x]⟩, true) := by
        unfold appendBlock
        rw [if_neg (by simp [h1, h2]), h3]
        simp [CertPool.AddCert, NewCertPool]
      rcases hblocks with hb | hb
      · simp [AppendCertsFromPEM, hb, hadd, hskip]
      · simp [AppendCertsFromPEM, hb, hadd, hskip]

/-- C10 at a concrete input: the toy CA bundle has one valid and one malformed
block and the pool holds the valid certificate; a missing key file fails
before the CA file is read. -/
theorem newTLSConfig_failure_cases_witness :
    (∃ cfg, (NewTLSConfig (demoSys fullEnv) "/etc/tls/client.crt" "/etc/tls/client.key"
        "/etc/tls/ca.pem").1 = .ok cfg ∧ cfg.RootCAs = some { certs := [{ Raw := [7] }] }) ∧
    NewTLSConfig (demoSys fullEnv) "/etc/tls/client.crt" "/missing.key" "/etc/tls/ca.pem"
      = (.error (.wrapper "open: no such file or directory" (.leaf "no such file or directory")),
          [.read "/etc/tls/client.crt", .read "/missing.key"]) := by
  constructor
  · obtain ⟨cfg, pool, h1, h2, _, h4⟩ :=
      (newTLSConfig_failure_cases (demoSys fullEnv) "/etc/tls/client.crt"
        "/etc/tls/client.key" "/etc/tls/ca.pem").2.2.2 _ _ rfl rfl
    have hx := h4 { Typ := "CERTIFICATE", Headers := [], Bytes := [7] }
      { Typ := "CERTIFICATE", Headers := [], Bytes := [8] } { Raw := [7] }
      ⟨rfl, rfl, rfl⟩ (by intro y h; simp [demoSys, demoParseCertificate] at h) (Or.inl rfl)
    exact ⟨cfg, h1, by rw [h2]; exact congrArg (fun l => some (CertPool.mk l)) hx⟩
  · exact ((newTLSConfig_failure_cases (demoSys fullEnv) "/etc/tls/client.crt"
      "/missing.key" "/etc/tls/ca.pem").2.1 _ rfl).1

/-- When the three variables are set and not empty, `NewTLSConfigFromEnv` is
`NewTLSConfig` on the values `os.Getenv` gives. -/
theorem newTLSConfigFromEnv_of_set (S : Sys)
    (h1 : ¬ unsetOrEmpty S clientCertFileEnvKey) (h2 : ¬ unsetOrEmpty S clientKeyFileEnvKey)
    (h3 : ¬ unsetOrEmpty S caCertFileEnvKey) :
    NewTLSConfigFromEnv S = NewTLSConfig S (Getenv S clientCertFileEnvKey)
      (Getenv S clientKeyFileEnvKey) (Getenv S caCertFileEnvKey) := by
  have g1 : ¬ Getenv S clientCertFileEnvKey = "" := fun x => h1 ((getenv_eq_empty_iff S _).1 x)
  have g2 : ¬ Getenv S clientKeyFileEnvKey = "" := fun x => h2 ((getenv_eq_empty_iff S _).1 x)
  have g3 : ¬ Getenv S caCertFileEnvKey = "" := fun x => h3 ((getenv_eq_empty_iff S _).1 x)
  simp [NewTLSConfigFromEnv, g1, g2, g3]

/-- The toy system whose CA file holds a certificate block with a header has
valid paths: the block is a `CERTIFICATE` block and its bytes parse. -/
theorem validPaths_headerCA : validPaths (demoSys headerCAEnv) := by
  refine ⟨?_, ?_, ?_, ⟨_, rfl⟩,
    ⟨[9], rfl, { Typ := "CERTIFICATE", Headers := [("Comment", "x")], Bytes := [7] },
      List.mem_cons_self _ _, rfl, ⟨_, rfl⟩⟩⟩ <;>
    simp [unsetOrEmpty, demoSys, headerCAEnv, clientCertFileEnvKey, clientKeyFileEnvKey,
      caCertFileEnvKey]

/-- C9, as stated, fails: in the toy system the three variables name valid
files (the key pair loads, the CA file can be read and holds a `CERTIFICATE`
block that parses as a certificate), but that block carries a header, so
`AppendCertsFromPEM` skips it: `NewTLSConfigFromEnv` succeeds with minimum
version TLS 1.2 and one client certificate, and the trust pool is empty. -/
theorem newTLSConfigFromEnv_empty_pool :
    validPaths (demoSys headerCAEnv) ∧
    (∃ cfg, (NewTLSConfigFromEnv (demoSys headerCAEnv)).1 = .ok cfg ∧
      cfg.MinVersion = VersionTLS12 ∧ cfg.Certificates.length = 1 ∧
      cfg.RootCAs = some { certs := [] }) ∧
    ¬ (validPaths (demoSys headerCAEnv) →
      ∃ cfg pool, (NewTLSConfigFromEnv (demoSys headerCAEnv)).1 = .ok cfg ∧
        cfg.MinVersion = VersionTLS12 ∧ cfg.Certificates.length = 1 ∧
        cfg.RootCAs = some pool ∧ pool.certs ≠ []) := by
  refine ⟨validPaths_headerCA, ⟨_, rfl, rfl, rfl, rfl⟩, ?_⟩
  intro h
  obtain ⟨cfg, pool, h1, _, _, h4, h5⟩ := h validPaths_headerCA
  have hcfg : (NewTLSConfigFromEnv (demoSys headerCAEnv)).1 =
      .ok { MinVersion := 771,
            Certificates := [{ Chain := [[1, 2, 3]], PrivateKey := [4, 5, 6] }],
            RootCAs := some { certs := [] } } := rfl
  rw [hcfg] at h1
  simp only [Except.ok.injEq] at h1
  subst h1
  simp only [Option.some.injEq] at h4
  subst h4
  exact h5 rfl

/-- C9, amended: when the three variables are set to valid file paths (not
empty, the key pair at the first two paths loads, the file at the cleaned CA
path can be read and holds a `CERTIFICATE` block that parses),
`NewTLSConfigFromEnv` produces a configuration with minimum version TLS 1.2,
exactly one client certificate and a trust pool, and the pool is not empty
exactly when the CA file holds a `CERTIFICATE` block without headers that
parses. -/
theorem newTLSConfigFromEnv_valid_paths (S : Sys) (h : validPaths S) :
    ∃ cfg pool, (NewTLSConfigFromEnv S).1 = .ok cfg ∧
      cfg.MinVersion = VersionTLS12 ∧ cfg.Certificates.length = 1 ∧
      cfg.RootCAs = some pool ∧ (pool.certs ≠ [] ↔ caHoldsCertificate S) := by
  obtain ⟨h1, h2, h3, ⟨cert, hp⟩, ⟨caCert, hca, _⟩⟩ := h
  rw [newTLSConfigFromEnv_of_set S h1 h2 h3, newTLSConfig_of_ok S _ _ _ cert caCert hp hca]
  refine ⟨_, _, rfl, rfl, rfl, rfl, ?_⟩
  constructor
  · intro hne
    obtain ⟨x, hx⟩ := List.exists_mem_of_ne_nil _ hne
    obtain ⟨block, hb, hv⟩ := (mem_appendCertsFromPEM S caCert x).1 hx
    exact ⟨caCert, hca, block, hb, x, hv⟩
  · rintro ⟨d, hd, block, hb, x, hv⟩
    rw [hca] at hd
    simp only [Except.ok.injEq] at hd
    subst hd
    exact List.ne_nil_of_mem ((mem_appendCertsFromPEM S caCert x).2 ⟨block, hb, hv⟩)

/-- The toy system with the full environment has valid paths. -/
theorem validPaths_full : validPaths (demoSys fullEnv) := by
  refine ⟨?_, ?_, ?_, ⟨_, rfl⟩,
    ⟨[7, 8], rfl, { Typ := "CERTIFICATE", Headers := [], Bytes := [7] },
      List.mem_cons_self _ _, rfl, ⟨_, rfl⟩⟩⟩ <;>
    simp [unsetOrEmpty, demoSys, fullEnv, clientCertFileEnvKey, clientKeyFileEnvKey,
      caCertFileEnvKey]

/-- The CA file of the toy system with the full environment holds a block that
`AppendCertsFromPEM` adds. -/
theorem caHoldsCertificate_full : caHoldsCertificate (demoSys fullEnv) :=
  ⟨[7, 8], rfl, { Typ := "CERTIFICATE", Headers := [], Bytes := [7] },
    List.mem_cons_self _ _, { Raw := [7] }, rfl, rfl, rfl⟩

/-- C9, amended, at a concrete input: the toy system with the full
environment, whose CA bundle holds one valid block without headers, so the
pool is not empty. -/
theorem newTLSConfigFromEnv_valid_paths_witness :
    validPaths (demoSys fullEnv) ∧
    ∃ cfg pool, (NewTLSConfigFromEnv (demoSys fullEnv)).1 = .ok cfg ∧
      cfg.MinVersion = VersionTLS12 ∧ cfg.Certificates.length = 1 ∧
      cfg.RootCAs = some pool ∧ pool.certs ≠ [] := by
  obtain ⟨cfg, pool, h1, h2, h3, h4, h5⟩ :=
    newTLSConfigFromEnv_valid_paths (demoSys fullEnv) validPaths_full
  exact ⟨validPaths_full, cfg, pool, h1, h2, h3, h4, h5.2 caHoldsCertificate_full⟩

end Httputil
